import Mathlib

/-
Verification of the byte-quantity model of `create.py`.

The source's numeric code runs on Python `int` and `float`.  Integers are
modelled as `Int`/`Nat`; `float` values are modelled as exact rationals in
a normalized pair representation (`PyF` below, kept fully structural so
that concrete runs reduce inside the kernel).  Every concrete value
evaluated in the theorems below is exactly representable as an IEEE double
and every float operation performed on it there is exact, so the rational
model and Python agree at those points.  Loops (`while` statements) are
modelled with explicit fuel: a fueled function returns `none` when the
fuel runs out inside the loop, so "`= none` for every fuel" states that
the Python loop never terminates.
-/

set_option maxRecDepth 4000

/-- Exceptions raised by the Python code paths we model:
`ValueError` (regex mismatch, `float()` failure, negative mantissa,
prefix-string length, f-string format error), `TypeError` (`len(None)`),
`KeyError` (`_UnitMeta.__getitem__` missing member). -/
inductive PyErr
  | valueError
  | typeError
  | keyError
deriving DecidableEq

instance {ε α : Type} [DecidableEq ε] [DecidableEq α] : DecidableEq (Except ε α) :=
  fun a b =>
    match a, b with
    | Except.error e1, Except.error e2 =>
        if h : e1 = e2 then isTrue (by rw [h]) else
          isFalse (fun hh => h (by cases hh; rfl))
    | Except.ok v1, Except.ok v2 =>
        if h : v1 = v2 then isTrue (by rw [h]) else
          isFalse (fun hh => h (by cases hh; rfl))
    | Except.error _, Except.ok _ => isFalse (fun hh => Except.noConfusion hh)
    | Except.ok _, Except.error _ => isFalse (fun hh => Except.noConfusion hh)

/-! Exact rational arithmetic for the Python `float` values of this
program.  All operations are structural recursion over `Int`/`Nat`
primitives, and every constructor keeps the value normalized (positive
denominator, lowest terms), so equal values are equal terms. -/

/-- Euclid's algorithm with explicit fuel; `m + 1` units of fuel always
suffice because the first argument strictly decreases. -/
def gcdFuel : Nat → Nat → Nat → Nat
  | 0, _, n => n
  | f + 1, m, n => if m = 0 then n else gcdFuel f (n % m) m

/-- Greatest common divisor, via `gcdFuel`. -/
def natGcd (m n : Nat) : Nat := gcdFuel (m + 1) m n

/-- An exact rational: numerator and positive denominator in lowest
terms (maintained by `PyF.norm`). -/
structure PyF where
  n : Int
  d : Int
deriving DecidableEq

/-- Build a normalized rational from a numerator and a nonzero
denominator: fix the sign, then divide by the gcd. -/
def PyF.norm (a b : Int) : PyF :=
  let a' := if b < 0 then -a else a
  let b' := if b < 0 then -b else b
  let g := natGcd a'.natAbs b'.natAbs
  if g = 0 then ⟨0, 1⟩
  else ⟨Int.ediv a' (g : Int), Int.ediv b' (g : Int)⟩

def PyF.ofInt (i : Int) : PyF := ⟨i, 1⟩

instance (n : Nat) : OfNat PyF n := ⟨⟨(n : Int), 1⟩⟩

def PyF.add (x y : PyF) : PyF := PyF.norm (x.n * y.d + y.n * x.d) (x.d * y.d)

def PyF.sub (x y : PyF) : PyF := PyF.norm (x.n * y.d - y.n * x.d) (x.d * y.d)

def PyF.mul (x y : PyF) : PyF := PyF.norm (x.n * y.n) (x.d * y.d)

def PyF.div (x y : PyF) : PyF := PyF.norm (x.n * y.d) (x.d * y.n)

def PyF.neg (x : PyF) : PyF := ⟨-x.n, x.d⟩

instance : Add PyF := ⟨PyF.add⟩

instance : Sub PyF := ⟨PyF.sub⟩

instance : Mul PyF := ⟨PyF.mul⟩

instance : Div PyF := ⟨PyF.div⟩

instance : Neg PyF := ⟨PyF.neg⟩

/-- Strict value comparison (denominators are positive). -/
def PyF.blt (x y : PyF) : Bool := x.n * y.d < y.n * x.d

instance : LT PyF := ⟨fun x y => PyF.blt x y = true⟩

instance (x y : PyF) : Decidable (x < y) :=
  inferInstanceAs (Decidable (PyF.blt x y = true))

/-- Power with a natural exponent. -/
def PyF.pow (q : PyF) : Nat → PyF
  | 0 => 1
  | k + 1 => q * PyF.pow q k

/-- Power with an integer exponent (Python `10 ** places` where `places`
may be negative). -/
def PyF.zpow (q : PyF) : Int → PyF
  | Int.ofNat k => PyF.pow q k
  | Int.negSucc k => PyF.div 1 (PyF.pow q (k + 1))

/-- Floor of a rational (the denominator is positive). -/
def PyF.floor (q : PyF) : Int := Int.fdiv q.n q.d

/-- Python `x % 1.0` for a float `x`: the fractional part `x - floor x`
(Python float modulo takes the sign of the divisor). -/
def pyMod1 (q : PyF) : PyF := q - PyF.ofInt q.floor

/-- Python built-in `round()` to an integer: round half to even. -/
def pyRound (q : PyF) : Int :=
  let f := q.floor
  let r := q - PyF.ofInt f
  if r < PyF.mk 1 2 then f
  else if PyF.mk 1 2 < r then f + 1
  else if f % 2 = 0 then f else f + 1

/-- Source `ByteUnit` dataclass (create.py lines 59-87): a unit symbol
(source field `prefix`, renamed `pfx` because `prefix` is a Lean keyword),
a power and a base. -/
structure ByteUnit where
  pfx : String
  power : Nat
  base : Int
deriving DecidableEq

/-- Source `ByteUnit.__post_init__`: `byte_count = base ** power`. -/
def ByteUnit.byte_count (u : ByteUnit) : Int := u.base ^ u.power

/-- Source `BYTE = ByteUnit("B", 0, base=1)` (create.py line 90).
Note the base of the shared bare-byte unit is 1. -/
def BYTE : ByteUnit := ⟨"B", 0, 1⟩

/-- Source `DecimalByteUnit(p, n)`: base fixed to 1000 (create.py lines 93-101). -/
def DecimalByteUnit (p : String) (n : Nat) : ByteUnit := ⟨p, n, 1000⟩

/-- Source `BinaryByteUnit(p, n)`: base fixed to 1024 (create.py lines 104-112). -/
def BinaryByteUnit (p : String) (n : Nat) : ByteUnit := ⟨p, n, 1024⟩

/-- The member list of the source enum `DecimalBytePrefix`
(create.py lines 149-157), in declaration order. -/
def decimalMembers : List ByteUnit :=
  [BYTE, DecimalByteUnit "K" 1, DecimalByteUnit "M" 2, DecimalByteUnit "G" 3,
   DecimalByteUnit "T" 4, DecimalByteUnit "P" 5]

/-- The member list of the source enum `BinaryBytePrefix`
(create.py lines 160-168), in declaration order. -/
def binaryMembers : List ByteUnit :=
  [BYTE, BinaryByteUnit "Ki" 1, BinaryByteUnit "Mi" 2, BinaryByteUnit "Gi" 3,
   BinaryByteUnit "Ti" 4, BinaryByteUnit "Pi" 5]

/-- Which of the two source prefix enum classes a member belongs to. -/
inductive UnitTable
  | decimal
  | binary
deriving DecidableEq

/-- A member of one of the two source prefix enums.  Python enum members
are equal exactly when they are the same member of the same class, which
for these enums is decided by the (class, unit) pair; in particular
`DecimalBytePrefix.B` and `BinaryBytePrefix.B` are distinct members even
though both carry the shared `BYTE` unit. -/
structure BytePfx where
  table : UnitTable
  unit : ByteUnit
deriving DecidableEq

/-- Source `_UnitMeta.__getitem__` with a string key: first member whose
`prefix` equals the key (create.py lines 45-51). -/
def lookupBySymbol (members : List ByteUnit) (s : String) : Option ByteUnit :=
  members.find? (fun u => u.pfx == s)

/-- Source `_UnitMeta.__getitem__` with an int key: first member whose
`power` equals the key (create.py lines 45-51). -/
def lookupByPower (members : List ByteUnit) (p : Nat) : Option ByteUnit :=
  members.find? (fun u => u.power == p)

/-- Source `BytePrefix.from_str` (create.py lines 137-146): a 1-character
string is looked up in `DecimalBytePrefix`, a 2-character string in
`BinaryBytePrefix` (`KeyError` when absent), anything else raises
`ValueError`. -/
def BytePfx.from_str (v : List Char) : Except PyErr BytePfx :=
  if v.length == 1 then
    match lookupBySymbol decimalMembers (String.mk v) with
    | some u => Except.ok ⟨UnitTable.decimal, u⟩
    | none => Except.error PyErr.keyError
  else if v.length == 2 then
    match lookupBySymbol binaryMembers (String.mk v) with
    | some u => Except.ok ⟨UnitTable.binary, u⟩
    | none => Except.error PyErr.keyError
  else Except.error PyErr.valueError

/-- Characters of the regex class `[KMGTP]`. -/
def inKMGTP (c : Char) : Bool :=
  c == 'K' || c == 'M' || c == 'G' || c == 'T' || c == 'P'

/-- Language of group 1 of the source pattern
`BYTE_RE = re.compile(r"^((?:[0-9]*.)?[0-9]+)([KMGTP]i?)?B$")`
(create.py line 26).  The dot in `[0-9]*.` is unescaped, so it matches any
single character except a newline.  A string is in the group-1 language
exactly when it is nonempty and either consists of digits only, or
contains exactly one non-digit character, that character is not `'\n'`,
and the last character is a digit (the split `[0-9]* AnyChar [0-9]+`
places the unique non-digit as the wildcard with a nonempty digit tail). -/
def isM (m : List Char) : Bool :=
  !m.isEmpty &&
    (m.all Char.isDigit ||
      ((m.filter (fun c => !c.isDigit)).length == 1 &&
        (m.getLast?.elim false Char.isDigit) &&
        m.all (fun c => !(c == '\n'))))

/-- Source `BYTE_RE.fullmatch` with its two capture groups (create.py
lines 26 and 193-197).  The decomposition is unique, hence this function
is deterministic: group 1 always ends in a digit (`[0-9]+`), so the
optional group 2 and the literal `B` are forced by the shape of the tail
of the string — after the final `B`, either the previous character is in
`[KMGTP]` (one-letter group 2), or it is `i` preceded by `[KMGTP]`
(two-letter group 2), or group 2 is absent (`none`, Python `None`) and
everything before `B` is group 1.  Returns `none` when there is no match. -/
def pyMatch (s : String) : Option (List Char × Option (List Char)) :=
  match s.data.reverse with
  | [] => none
  | b :: r =>
    if b == 'B' then
      match r with
      | [] => none
      | c1 :: rr =>
        if inKMGTP c1 then
          let m := rr.reverse
          if isM m then some (m, some [c1]) else none
        else if c1 == 'i' then
          match rr with
          | [] => none
          | c2 :: rr2 =>
            if inKMGTP c2 then
              let m := rr2.reverse
              if isM m then some (m, some [c2, 'i']) else none
            else none
        else
          let m := (c1 :: rr).reverse
          if isM m then some (m, none) else none
    else none

/-- Value of a list of decimal digit characters. -/
def digitsVal (cs : List Char) : Nat :=
  cs.foldl (fun a c => 10 * a + (c.toNat - 48)) 0

/-- Python built-in `float()` on strings, modelled exactly on the strings
that can occur as group 1 of `BYTE_RE` (at most one non-digit character,
see `isM`); on such strings `float()` succeeds for: plain digit runs,
`a.b` / `.b` / `a.` decimals, a leading sign, a single underscore between
digits, one exponent `aEb` with digits on both sides, and one leading
whitespace character (stripped).  Other strings raise `ValueError`
(`none`).  The value is the exact rational denoted by the literal. -/
def pyFloat (cs : List Char) : Option PyF :=
  if !cs.isEmpty && cs.all Char.isDigit then some (PyF.ofInt (digitsVal cs))
  else
    let i := cs.findIdx (fun c => !c.isDigit)
    let a := cs.take i
    let b := cs.drop (i + 1)
    match cs.get? i with
    | none => none
    | some c =>
      if !(b.all Char.isDigit) then none
      else if c == '.' then
        if b.isEmpty then (if a.isEmpty then none else some (PyF.ofInt (digitsVal a)))
        else some (PyF.ofInt (digitsVal a) + PyF.ofInt (digitsVal b) / PyF.pow 10 b.length)
      else if b.isEmpty then none
      else if c == '-' then
        (if a.isEmpty then some (PyF.neg (PyF.ofInt (digitsVal b))) else none)
      else if c == '+' then
        (if a.isEmpty then some (PyF.ofInt (digitsVal b)) else none)
      else if c == 'e' || c == 'E' then
        (if a.isEmpty then none
         else some (PyF.ofInt (digitsVal a) * PyF.pow 10 (digitsVal b)))
      else if c == '_' then
        (if a.isEmpty then none
         else some (PyF.ofInt (digitsVal a) * PyF.pow 10 b.length + PyF.ofInt (digitsVal b)))
      else if c.isWhitespace then
        (if a.isEmpty then some (PyF.ofInt (digitsVal b)) else none)
      else none

/-- A quantity of bytes: source dataclass `Byte` (create.py lines 171-188).
The source field `prefix` is named `pfx` (Lean keyword).  The frozen
dataclass compares instances field by field, which derived equality on
this structure mirrors. -/
structure Byte where
  byte_count : Int
  pfx : BytePfx
deriving DecidableEq

/-- Source `Byte.from_str` (create.py lines 190-207): match `BYTE_RE`
(`ValueError` on no match; the group-count guard always passes), call
`float()` on group 1 (`ValueError` on failure), reject a negative
mantissa (`ValueError`), resolve group 2 — which is Python `None` when
the optional group is absent, so `BytePrefix.from_str` then evaluates
`len(None)` and raises `TypeError` — and return
`Byte(round(mantissa * prefix.value.byte_count), prefix)`. -/
def Byte.from_str (s : String) : Except PyErr Byte :=
  match pyMatch s with
  | none => Except.error PyErr.valueError
  | some (m, p) =>
    match pyFloat m with
    | none => Except.error PyErr.valueError
    | some q =>
      if q < 0 then Except.error PyErr.valueError
      else
        match p with
        | none => Except.error PyErr.typeError
        | some v =>
          match BytePfx.from_str v with
          | Except.error e => Except.error e
          | Except.ok pr => Except.ok ⟨pyRound (q * PyF.ofInt pr.unit.byte_count), pr⟩

/-- The `while rem > self.base` loop of `ByteUnit.to_str` (create.py
lines 73-79), with fuel.  Each pass first captures
`frac = (rem / self.base) % 1` from the current `rem`, then floor-divides
`rem` by the base (`rem //= self.base`) and increments `power_count`
(which the source computes but never uses).  `none` means the fuel ran
out with the guard still true. -/
def toStrLoop (base : Int) : Nat → Int → PyF → Nat → Option (Int × PyF × Nat)
  | 0, rem, frac, pc => if base < rem then none else some (rem, frac, pc)
  | fuel + 1, rem, frac, pc =>
    if base < rem then
      toStrLoop base fuel (Int.fdiv rem base)
        (pyMod1 (PyF.ofInt rem / PyF.ofInt base)) (pc + 1)
    else some (rem, frac, pc)

/-- Render `f"{x:.{p}f}"` for a nonnegative precision `p`: round the value
to `p` decimal digits (ties to even; exact for the dyadic values reached
in this development) and print with exactly `p` digits after the point
(no point when `p = 0`). -/
def pyFormatFixed (q : PyF) (p : Nat) : String :=
  let n := pyRound (q * PyF.pow 10 p)
  if p = 0 then toString n
  else
    let a := n.natAbs
    let ip := a / 10 ^ p
    let fp := a % 10 ^ p
    let fs := toString fp
    let pad := String.mk (List.replicate (p - fs.length) '0')
    (if n < 0 then "-" else "") ++ toString ip ++ "." ++ pad ++ fs

/-- Source `ByteUnit.to_str` (create.py lines 71-87).  After the loop, if
`(10 ** places * frac) % 1 > 0` the value `rem + frac` is rendered with
the f-string `f"{rem:.{places}f}"` — which raises `ValueError` when
`places` is negative — otherwise the integer `rem` is rendered plainly;
the unit's own symbol and `B` are appended. -/
def ByteUnit.to_str (u : ByteUnit) (_b : Int) (places : Int) (fuel : Nat) :
    Option (Except PyErr String) :=
  match toStrLoop u.base fuel _b 0 0 with
  | none => none
  | some (rem, frac, _) =>
    if 0 < pyMod1 (PyF.zpow 10 places * frac) then
      if places < 0 then some (Except.error PyErr.valueError)
      else some (Except.ok (pyFormatFixed (PyF.ofInt rem + frac) places.toNat ++ u.pfx ++ "B"))
    else some (Except.ok (toString rem ++ u.pfx ++ "B"))

/-- Source `Byte.__str__` (create.py lines 178-180): format the stored
count with the stored prefix member's unit at the default `places = 3`. -/
def Byte.str (b : Byte) (fuel : Nat) : Option (Except PyErr String) :=
  b.pfx.unit.to_str b.byte_count 3 fuel

/-- The `while rem > _base` loop of `Byte._from_byte_count` (create.py
lines 221-225), with fuel: repeated true division of the float `rem` by
the table base, counting the steps. -/
def fromByteCountLoop (base : PyF) : Nat → PyF → Nat → Option Nat
  | 0, rem, pc => if base < rem then none else some pc
  | fuel + 1, rem, pc =>
    if base < rem then fromByteCountLoop base fuel (rem / base) (pc + 1) else some pc

/-- Source `Byte._from_byte_count` (create.py lines 219-226): run the
division loop from `float(_v)` and look the resulting power count up in
the given prefix enum (`KeyError` when no member has that power). -/
def Byte.from_byte_count (tbl : UnitTable) (members : List ByteUnit) (base : PyF)
    (v : Int) (fuel : Nat) : Option (Except PyErr Byte) :=
  match fromByteCountLoop base fuel (PyF.ofInt v) 0 with
  | none => none
  | some pc =>
    match lookupByPower members pc with
    | none => some (Except.error PyErr.keyError)
    | some u => some (Except.ok ⟨v, ⟨tbl, u⟩⟩)

/-- Source `Byte.binary_from_byte_count` (create.py lines 214-217). -/
def Byte.binary_from_byte_count (v : Int) (fuel : Nat) : Option (Except PyErr Byte) :=
  Byte.from_byte_count UnitTable.binary binaryMembers 1024 v fuel

/-- Source `Byte.decimal_from_byte_count` (create.py lines 209-212). -/
def Byte.decimal_from_byte_count (v : Int) (fuel : Nat) : Option (Except PyErr Byte) :=
  Byte.from_byte_count UnitTable.decimal decimalMembers 1000 v fuel

/-- Formatting a raw byte count under the binary table, as the source
composes it: `Byte.binary_from_byte_count` followed by `to_str` on the
selected prefix member's unit with the given `places`. -/
def formatBinary (v : Int) (places : Int) (fuel : Nat) : Option (Except PyErr String) :=
  match Byte.binary_from_byte_count v fuel with
  | none => none
  | some (Except.error e) => some (Except.error e)
  | some (Except.ok b) => b.pfx.unit.to_str b.byte_count places fuel

/-- Formatting a raw byte count under the decimal table, as the source
composes it: `Byte.decimal_from_byte_count` followed by `to_str`. -/
def formatDecimal (v : Int) (places : Int) (fuel : Nat) : Option (Except PyErr String) :=
  match Byte.decimal_from_byte_count v fuel with
  | none => none
  | some (Except.error e) => some (Except.error e)
  | some (Except.ok b) => b.pfx.unit.to_str b.byte_count places fuel

/-- Source `write_bytes` (create.py lines 253-270), with fuel, returning
the sizes of the chunks written: while `remaining > 0`, compute
`chunk_byte_count = min(remaining, chunk_size)`, call
`os.urandom(chunk_byte_count)` — which yields exactly that many bytes
when the argument is nonnegative but raises `ValueError` on a negative
argument — write them and subtract the count from `remaining`.  `none`
means the fuel ran out with the guard still true. -/
def write_bytes (chunk_size : Int) : Nat → Int → Option (Except PyErr (List Int))
  | 0, remaining => if 0 < remaining then none else some (Except.ok [])
  | fuel + 1, remaining =>
    if 0 < remaining then
      let c := min remaining chunk_size
      if c < 0 then some (Except.error PyErr.valueError)
      else
        match write_bytes chunk_size fuel (remaining - c) with
        | none => none
        | some (Except.error e) => some (Except.error e)
        | some (Except.ok rest) => some (Except.ok (c :: rest))
    else some (Except.ok [])

/-- Source `_main_interface` chunk-size validation (create.py lines
369-372): a non-positive parsed chunk size raises `ValueError` before
`create_files` (and hence `write_bytes`) is reached. -/
def cliChunkCheck (v : Int) : Except String Unit :=
  if v ≤ 0 then Except.error "chunk_size_bytes must be positive." else Except.ok ()

/-- Modelled from the spec: the mantissa `[0-9]*\.?[0-9]+` of the
documented input grammar (spec section 6). -/
def specMantissa (cs : List Char) : Bool :=
  match cs.span Char.isDigit with
  | (d1, rest) =>
    match rest with
    | [] => !d1.isEmpty
    | c :: r2 => c == '.' && !r2.isEmpty && r2.all Char.isDigit

/-- Modelled from the spec: the alternatives of the documented optional
unit group, longest first as written in the spec's pattern. -/
def specSuffixes : List (List Char) :=
  [['K', 'i'], ['M', 'i'], ['G', 'i'], ['T', 'i'], ['P', 'i'],
   ['K'], ['M'], ['G'], ['T'], ['P'], []]

/-- Modelled from the spec: whole-string match of the documented grammar
`^\s*([0-9]*\.?[0-9]+)\s*(Ki|Mi|Gi|Ti|Pi|K|M|G|T|P)?B\s*$`
(spec section 6): optional whitespace, mantissa, optional whitespace,
optional unit group, mandatory `B`, optional whitespace.  Used only to
compare the code's actual acceptance against the documented one. -/
def specGrammarMatches (s : String) : Bool :=
  let cs := s.data.dropWhile Char.isWhitespace
  let csr := cs.reverse.dropWhile Char.isWhitespace
  match csr with
  | [] => false
  | b :: rr =>
    b == 'B' &&
      specSuffixes.any (fun suf =>
        suf.reverse.isPrefixOf rr &&
          specMantissa (((rr.drop suf.length).dropWhile Char.isWhitespace).reverse))

/-! Helper lemmas shared by the claim theorems. -/

/-- With base 1 (the shared `BYTE` unit) the reduction loop of `to_str`
never terminates once `rem > 1`: `rem //= 1` leaves `rem` unchanged. -/
theorem toStrLoop_one {rem : Int} (h : 1 < rem) :
    ∀ (fuel : Nat) (frac : PyF) (pc : Nat), toStrLoop 1 fuel rem frac pc = none := by
  intro fuel
  induction fuel with
  | zero => intro frac pc; simp [toStrLoop, h]
  | succ n ih =>
    intro frac pc
    simp only [toStrLoop, if_pos h, Int.fdiv_one]
    exact ih _ _

/-- `ByteUnit.to_str` on the shared `BYTE` unit diverges for every count
greater than 1, at every `places` and every fuel. -/
theorem to_str_BYTE_none {v : Int} (h : 1 < v) (places : Int) (fuel : Nat) :
    ByteUnit.to_str BYTE v places fuel = none := by
  unfold ByteUnit.to_str
  rw [show BYTE.base = 1 from rfl, toStrLoop_one h fuel 0 0]

/-- The float division loop of `_from_byte_count` exits immediately when
the starting remainder does not exceed the base. -/
theorem fromByteCountLoop_stop {base rem : PyF} (h : ¬ base < rem) (fuel pc : Nat) :
    fromByteCountLoop base fuel rem pc = some pc := by
  cases fuel <;> simp [fromByteCountLoop, h]

/-- Formatting under the binary table diverges for every count `v` with
`1 < v ≤ 1024`: the selection loop picks power 0, hence the `BYTE` unit
of base 1, on which `to_str` never terminates. -/
theorem formatBinary_small_none {v : Int} (h1 : 1 < v)
    (h2 : ¬ (1024 : PyF) < PyF.ofInt v) (places : Int) (fuel : Nat) :
    formatBinary v places fuel = none := by
  unfold formatBinary Byte.binary_from_byte_count Byte.from_byte_count
  rw [fromByteCountLoop_stop h2]
  exact to_str_BYTE_none h1 places fuel

/-- Formatting under the decimal table diverges for every count `v` with
`1 < v ≤ 1000`, for the same reason as `formatBinary_small_none`. -/
theorem formatDecimal_small_none {v : Int} (h1 : 1 < v)
    (h2 : ¬ (1000 : PyF) < PyF.ofInt v) (places : Int) (fuel : Nat) :
    formatDecimal v places fuel = none := by
  unfold formatDecimal Byte.decimal_from_byte_count Byte.from_byte_count
  rw [fromByteCountLoop_stop h2]
  exact to_str_BYTE_none h1 places fuel

/-! Claim theorems. -/

/-- C1: the round-trip property fails on the code.  For the byte count 2
the formatter never returns a string under either unit table, at the
default `places = 3` and at the non-default `places = 5`: the selection
loop assigns the power-0 member `B`, whose unit has base 1, and `to_str`'s
`while rem > self.base` loop with `rem //= 1` then runs forever.  So
`parse(format(ByteCount(2)))` can never yield 2 — no string is ever
produced to parse. -/
theorem C1_round_trip_diverges_at_two :
    (∀ fuel, formatBinary 2 3 fuel = none) ∧
    (∀ fuel, formatBinary 2 5 fuel = none) ∧
    (∀ fuel, formatDecimal 2 3 fuel = none) ∧
    (∀ fuel, formatDecimal 2 5 fuel = none) :=
  ⟨fun fuel => formatBinary_small_none (by norm_num) (by decide) 3 fuel,
   fun fuel => formatBinary_small_none (by norm_num) (by decide) 5 fuel,
   fun fuel => formatDecimal_small_none (by norm_num) (by decide) 3 fuel,
   fun fuel => formatDecimal_small_none (by norm_num) (by decide) 5 fuel⟩

/-- C2: parsing a bare-byte string does not succeed.  `BYTE_RE` matches
`"1024B"` and `"0B"` with the optional unit group absent, so group 2 is
Python `None` and `BytePrefix.from_str` evaluates `len(None)`, raising
`TypeError` instead of resolving the empty suffix to the shared `B` unit;
`"1024"` without the trailing `B` fails with `ValueError` as the claim
says. -/
theorem C2_bare_byte_parse_raises :
    Byte.from_str "1024B" = Except.error PyErr.typeError ∧
    Byte.from_str "0B" = Except.error PyErr.typeError ∧
    Byte.from_str "1024" = Except.error PyErr.valueError := by
  refine ⟨?_, ?_, ?_⟩ <;> decide

/-- C3: the formatter is not total.  `str(Byte(2))` — the default prefix
is `BinaryBytePrefix.B`, whose unit is the shared `BYTE` with base 1 —
never terminates: the reduction loop leaves `rem = 2` unchanged forever,
at every fuel. -/
theorem C3_formatter_diverges_on_bare_unit :
    ∀ fuel, Byte.str ⟨2, ⟨UnitTable.binary, BYTE⟩⟩ fuel = none := by
  intro fuel
  show ByteUnit.to_str BYTE 2 3 fuel = none
  exact to_str_BYTE_none (by norm_num) 3 fuel

/-- C4: the claimed boundary outputs are not produced.  Under the binary
table the counts 1024 and 1023 select power 0, hence the `BYTE` unit of
base 1, and formatting runs forever instead of yielding `"1024B"` or
`"1023B"`; the count 1025 does format as `"1.001KiB"` — the Ki prefix
with a nonzero fraction rounded to `places = 3` digits — as claimed. -/
theorem C4_boundary_diverges :
    (∀ fuel, formatBinary 1024 3 fuel = none) ∧
    (∀ fuel, formatBinary 1023 3 fuel = none) ∧
    formatBinary 1025 3 4 = some (Except.ok "1.001KiB") :=
  ⟨fun fuel => formatBinary_small_none (by norm_num) (by decide) 3 fuel,
   fun fuel => formatBinary_small_none (by norm_num) (by decide) 3 fuel,
   by decide⟩

/-- C5 counterexample: the code's acceptance is not the documented
grammar.  `"1e5KB"` does not match
`^\s*([0-9]*\.?[0-9]+)\s*(Ki|Mi|Gi|Ti|Pi|K|M|G|T|P)?B\s*$`, yet the code
parses it successfully (to 100000000 bytes): the unescaped dot in
`BYTE_RE` lets the exponent literal `1e5` through as group 1 and Python
`float()` accepts it. -/
theorem C5_counterexample :
    specGrammarMatches "1e5KB" = false ∧
    Byte.from_str "1e5KB" =
      Except.ok ⟨100000000, ⟨UnitTable.decimal, ⟨"K", 1, 1000⟩⟩⟩ := by
  refine ⟨?_, ?_⟩ <;> decide

/-- C5 amended: acceptance is decided by the code's own pattern
`^((?:[0-9]*.)?[0-9]+)([KMGTP]i?)?B$` (unescaped dot, no whitespace
tolerance) together with Python `float()` on group 1.  Every string the
pattern rejects fails with `ValueError`; the documented malformed inputs
`""`, `"100"`, `"KB"` fail with `ValueError` at the match and `"-5B"`
fails with `ValueError` at the negative-mantissa check; but float-style
mantissas such as `"1e5"` are accepted, and a matched string with no unit
group (a bare-byte string such as `"1024B"`) raises `TypeError` rather
than parsing. -/
theorem C5_amended_acceptance :
    (∀ s : String, pyMatch s = none → Byte.from_str s = Except.error PyErr.valueError) ∧
    Byte.from_str "" = Except.error PyErr.valueError ∧
    Byte.from_str "100" = Except.error PyErr.valueError ∧
    Byte.from_str "KB" = Except.error PyErr.valueError ∧
    Byte.from_str "-5B" = Except.error PyErr.valueError ∧
    Byte.from_str "1e5KB" =
      Except.ok ⟨100000000, ⟨UnitTable.decimal, ⟨"K", 1, 1000⟩⟩⟩ ∧
    Byte.from_str "1024B" = Except.error PyErr.typeError := by
  refine ⟨fun s h => ?_, ?_, ?_, ?_, ?_, ?_, ?_⟩
  · simp [Byte.from_str, h]
  all_goals decide

/-- C5 witness: the no-match clause of the amended claim at the concrete
input `"zz"`. -/
theorem C5_witness :
    pyMatch "zz" = none ∧ Byte.from_str "zz" = Except.error PyErr.valueError :=
  ⟨by decide, C5_amended_acceptance.1 "zz" (by decide)⟩

/-- C6: table selection by suffix shape.  `"1KB"` parses to 1000 bytes
with a decimal-table member and `"1KiB"` to 1024 bytes with a
binary-table member; in general every suffix that `BytePrefix.from_str`
resolves successfully is resolved in the decimal table when it has one
character and in the binary table when it has two (and the two-character
members are exactly Ki, Mi, Gi, Ti, Pi, all ending in `i`). -/
theorem C6_table_selected_by_suffix_shape :
    Byte.from_str "1KB" = Except.ok ⟨1000, ⟨UnitTable.decimal, ⟨"K", 1, 1000⟩⟩⟩ ∧
    Byte.from_str "1KiB" = Except.ok ⟨1024, ⟨UnitTable.binary, ⟨"Ki", 1, 1024⟩⟩⟩ ∧
    (∀ (v : List Char) (u : BytePfx), BytePfx.from_str v = Except.ok u →
      (v.length = 1 → u.table = UnitTable.decimal) ∧
      (v.length = 2 → u.table = UnitTable.binary)) := by
  refine ⟨by decide, by decide, fun v u h => ⟨fun hl => ?_, fun hl => ?_⟩⟩
  · rw [BytePfx.from_str] at h
    simp only [hl] at h
    cases hf : lookupBySymbol decimalMembers (String.mk v) <;> rw [hf] at h
    · exact absurd h (by simp)
    · cases h; rfl
  · rw [BytePfx.from_str] at h
    simp only [hl] at h
    cases hf : lookupBySymbol binaryMembers (String.mk v) <;> rw [hf] at h
    · exact absurd h (by simp)
    · cases h; rfl

/-- C6 witness: the general clause at the concrete suffix `"K"`. -/
theorem C6_witness :
    ((['K'] : List Char).length = 1 →
      (⟨UnitTable.decimal, ⟨"K", 1, 1000⟩⟩ : BytePfx).table = UnitTable.decimal) ∧
    ((['K'] : List Char).length = 2 →
      (⟨UnitTable.decimal, ⟨"K", 1, 1000⟩⟩ : BytePfx).table = UnitTable.binary) :=
  C6_table_selected_by_suffix_shape.2.2 ['K'] ⟨UnitTable.decimal, ⟨"K", 1, 1000⟩⟩
    (by decide)

/-- C7 counterexample: ByteCount equality is not determined by the
integer value alone.  The frozen dataclass `Byte` compares the `prefix`
field too, so `Byte(1000, DecimalBytePrefix.B)` and
`Byte(1000, BinaryBytePrefix.B)` — the same integer under the two
tables' B members — are unequal. -/
theorem C7_counterexample :
    ¬ ((⟨1000, ⟨UnitTable.decimal, BYTE⟩⟩ : Byte) = ⟨1000, ⟨UnitTable.binary, BYTE⟩⟩) := by
  decide

/-- C7 amended: equality of `Byte` values is field-wise, as generated by
the frozen dataclass: two ByteCounts are equal exactly when both their
integer byte counts and their prefix members are equal; with the same
prefix the integer alone decides, but equal integers under different
prefixes compare unequal. -/
theorem C7_amended_structural_eq :
    ∀ b1 b2 : Byte, b1 = b2 ↔ (b1.byte_count = b2.byte_count ∧ b1.pfx = b2.pfx) := by
  intro b1 b2
  constructor
  · rintro rfl
    exact ⟨rfl, rfl⟩
  · rintro ⟨h1, h2⟩
    cases b1
    cases b2
    dsimp only at h1 h2
    rw [h1, h2]

/-- C8 counterexample: a negative `places` is not rejected at the
boundary.  `format(ByteCount(0), places=-1)` under the binary table
returns the string `"0BB"` (the integer branch is taken, `self.prefix`
is `"B"` and a literal `"B"` is appended) instead of failing with
`InvalidArgument`. -/
theorem C8_counterexample_negative_places :
    formatBinary 0 (-1) 1 = some (Except.ok "0BB") := by decide

/-- C8 amended: the code never validates `places`.  With a negative
`places` the call can succeed — `format(ByteCount(0), -1)` returns
`"0BB"` — and a `ValueError` (from the f-string format specifier, not an
up-front check) occurs exactly when the fractional branch is reached, as
at count 1025 with `places = -1`. -/
theorem C8_amended_negative_places :
    formatBinary 0 (-1) 1 = some (Except.ok "0BB") ∧
    formatBinary 1025 (-1) 4 = some (Except.error PyErr.valueError) ∧
    (∀ (u : ByteUnit) (b places : Int) (fuel : Nat) (rem : Int) (frac : PyF) (pc : Nat),
      toStrLoop u.base fuel b 0 0 = some (rem, frac, pc) →
      0 < pyMod1 (PyF.zpow 10 places * frac) → places < 0 →
      ByteUnit.to_str u b places fuel = some (Except.error PyErr.valueError)) := by
  refine ⟨by decide, by decide, fun u b places fuel rem frac pc hloop hfrac hneg => ?_⟩
  have hrw : ByteUnit.to_str u b places fuel =
      (if 0 < pyMod1 (PyF.zpow 10 places * frac) then
        if places < 0 then some (Except.error PyErr.valueError)
        else some (Except.ok
          (pyFormatFixed (PyF.ofInt rem + frac) places.toNat ++ u.pfx ++ "B"))
      else some (Except.ok (toString rem ++ u.pfx ++ "B"))) := by
    unfold ByteUnit.to_str
    rw [hloop]
  rw [hrw, if_pos hfrac, if_pos hneg]

/-- C8 witness: the fractional-branch clause of the amended claim at the
Ki unit, count 1025, `places = -1` and fuel 4. -/
theorem C8_witness :
    ByteUnit.to_str (BinaryByteUnit "Ki" 1) 1025 (-1) 4 =
      some (Except.error PyErr.valueError) :=
  C8_amended_negative_places.2.2 (BinaryByteUnit "Ki" 1) 1025 (-1) 4 1 (PyF.mk 1 1024) 1
    (by decide) (by decide) (by decide)

/-- C9: the documented concrete values hold.  `parse("10GiB")` yields
10 * 1024^3 = 10737418240 bytes with the binary Gi member,
`parse("1.5MB")` yields exactly round(1.5 * 1000^2) = 1500000 bytes with
the decimal M member, and formatting 10737418240 under the binary table
at the default `places = 3` yields `"10GiB"` with no fractional part. -/
theorem C9_concrete_values :
    Byte.from_str "10GiB" =
      Except.ok ⟨10737418240, ⟨UnitTable.binary, ⟨"Gi", 3, 1024⟩⟩⟩ ∧
    Byte.from_str "1.5MB" =
      Except.ok ⟨1500000, ⟨UnitTable.decimal, ⟨"M", 2, 1000⟩⟩⟩ ∧
    formatBinary 10737418240 3 5 = some (Except.ok "10GiB") := by
  refine ⟨?_, ?_, ?_⟩ <;> decide

/-- With a positive chunk size, `write_bytes` finishes once the fuel
covers the requested total, the chunk sizes written sum to
`max total 0`, and every chunk is between 1 and the chunk size. -/
theorem write_bytes_terminates (chunk : Int) (hc : 1 ≤ chunk) :
    ∀ (fuel : Nat) (total : Int), total.toNat ≤ fuel →
      ∃ out, write_bytes chunk fuel total = some (Except.ok out) ∧
        out.sum = max total 0 ∧ ∀ c ∈ out, 1 ≤ c ∧ c ≤ chunk := by
  intro fuel
  induction fuel with
  | zero =>
    intro total ht
    have h0 : ¬ 0 < total := by omega
    refine ⟨[], by simp [write_bytes, h0], ?_, by simp⟩
    simp only [List.sum_nil]
    omega
  | succ n ih =>
    intro total ht
    by_cases h0 : 0 < total
    · have hc1 : 1 ≤ min total chunk := by
        rcases le_total total chunk with h | h
        · rw [min_eq_left h]; omega
        · rw [min_eq_right h]; exact hc
      have hcn : ¬ min total chunk < 0 := by omega
      have hle : min total chunk ≤ total := min_le_left _ _
      have hch : min total chunk ≤ chunk := min_le_right _ _
      have hfuel : (total - min total chunk).toNat ≤ n := by omega
      obtain ⟨out, heq, hsum, hb⟩ := ih (total - min total chunk) hfuel
      refine ⟨min total chunk :: out, ?_, ?_, ?_⟩
      · simp [write_bytes, if_pos h0, if_neg hcn, heq]
        omega
      · simp only [List.sum_cons, hsum]
        omega
      · intro c hcmem
        rcases List.mem_cons.mp hcmem with rfl | hmem
        · exact ⟨hc1, hch⟩
        · exact hb c hmem
    · refine ⟨[], by simp [write_bytes, h0], ?_, by simp⟩
      simp only [List.sum_nil]
      omega

/-- With chunk size exactly 0 and a positive total, each pass computes
`min(remaining, 0) = 0`, `os.urandom(0)` succeeds with zero bytes and
`remaining` never decreases: the loop never terminates. -/
theorem write_bytes_zero_diverges :
    ∀ (fuel : Nat) (total : Int), 0 < total → write_bytes 0 fuel total = none := by
  intro fuel
  induction fuel with
  | zero => intro total h0; simp [write_bytes, h0]
  | succ n ih =>
    intro total h0
    have hm : min total 0 = 0 := min_eq_right (by omega)
    simp [write_bytes, if_pos h0, hm, ih total h0]

/-- With a negative chunk size and a positive total, the first pass
computes `min(remaining, chunk_size) = chunk_size < 0` and
`os.urandom` raises `ValueError` immediately. -/
theorem write_bytes_neg_raises (chunk : Int) (hc : chunk < 0) :
    ∀ (fuel : Nat) (total : Int), 0 < total →
      write_bytes chunk (fuel + 1) total = some (Except.error PyErr.valueError) := by
  intro fuel total h0
  have hm : min total chunk = chunk := min_eq_right (by omega)
  simp [write_bytes, if_pos h0, hm, if_pos hc]

/-- C10: for every chunk_size ≥ 1, `write_bytes` terminates (with fuel
covering the total) and the chunk sizes it writes sum to
`max(total_byte_count, 0)` with every chunk between 1 and chunk_size.
For chunk_size ≤ 0 and a positive total the guarantee fails: at
chunk_size = 0 the loop never terminates, and at chunk_size < 0 the very
first `os.urandom` call raises `ValueError`; the CLI rejects all
non-positive chunk sizes with `ValueError` before `write_bytes` is
reached. -/
theorem C10_write_bytes_chunks :
    (∀ (chunk total : Int) (fuel : Nat), 1 ≤ chunk → total.toNat ≤ fuel →
      ∃ out, write_bytes chunk fuel total = some (Except.ok out) ∧
        out.sum = max total 0 ∧ ∀ c ∈ out, 1 ≤ c ∧ c ≤ chunk) ∧
    (∀ total : Int, 0 < total → ∀ fuel, write_bytes 0 fuel total = none) ∧
    (∀ (chunk total : Int), chunk < 0 → 0 < total → ∀ fuel,
      write_bytes chunk (fuel + 1) total = some (Except.error PyErr.valueError)) ∧
    (∀ chunk : Int, chunk ≤ 0 →
      cliChunkCheck chunk = Except.error "chunk_size_bytes must be positive.") :=
  ⟨fun chunk total fuel hc ht => write_bytes_terminates chunk hc fuel total ht,
   fun total h0 fuel => write_bytes_zero_diverges fuel total h0,
   fun chunk total hc h0 fuel => write_bytes_neg_raises chunk hc fuel total h0,
   fun chunk hc => by simp [cliChunkCheck, hc]⟩

/-- C10 witness: the termination clause at chunk size 3, total 7, fuel 7
(the loop writes 3 + 3 + 1 bytes). -/
theorem C10_witness :
    ∃ out, write_bytes 3 7 7 = some (Except.ok out) ∧
      out.sum = max 7 0 ∧ ∀ c ∈ out, 1 ≤ c ∧ c ≤ 3 :=
  C10_write_bytes_chunks.1 3 7 7 (by decide) (by decide)
